import Mathlib

/-!
Shallow embedding of `src/script.js` of the Adventist-Hymnal repository.

The program is a client-side hymn browser.  Its state lives in JavaScript
module-level variables (`hymns`, `favorites`, `notes`, `moods`, the
`lyricsCache`) plus three `localStorage` slots.  Dynamically typed JavaScript
values are modelled by the inductive `JsValue`; machine-level details the
claims do not touch (floating point `NaN`, UTF-16 surrogate pairs) are out of
scope, integers model the numeric ids actually used.  Fallible platform calls
(`JSON.parse`, `fetch`) are modelled by `Except`/outcome types; `localStorage`
slots by `Option String` (absent slot = `none`).
-/

namespace Hymnal

/-- A JavaScript value, as produced by `JSON.parse` or held in the module-level
variables.  `undefined` models `undefined` (never produced by `JSON.parse`, but
produced by property access on a missing field). -/
inductive JsValue where
  | undefined
  | null
  | bool (b : Bool)
  | num (n : Int)
  | str (s : String)
  | arr (elems : List JsValue)
  | obj (fields : List (String × JsValue))

/-- JavaScript truthiness of a value: `undefined`, `null`, `false`, `0` and
`""` are falsy; every array and object (including empty ones) is truthy. -/
def JsValue.truthy : JsValue → Bool
  | .undefined => false
  | .null => false
  | .bool b => b
  | .num n => n != 0
  | .str s => s != ""
  | .arr _ => true
  | .obj _ => true

/-- `Array.isArray(v)`. -/
def JsValue.isArray : JsValue → Bool
  | .arr _ => true
  | _ => false

/-- The JavaScript `a || b` operator on values. -/
def jsOr (a b : JsValue) : JsValue := if a.truthy then a else b

/-- Property access `v.k` on an object (first binding wins; `JSON.parse`
produces unique keys).  Access on a non-object non-null value yields
`undefined`; access on `null`/`undefined` throws and is handled at the one
call site that can see those (`importData`). -/
def JsValue.getField : JsValue → String → JsValue
  | .obj fs, k =>
    match fs.lookup k with
    | some v => v
    | none => .undefined
  | _, _ => .undefined

/-- JSON string escaping for `JSON.stringify` (the characters occurring in
this program's data). -/
def escapeJsonChar (c : Char) : String :=
  if c = '"' then "\\\""
  else if c = '\\' then "\\\\"
  else if c = '\n' then "\\n"
  else if c = '\t' then "\\t"
  else if c = '\r' then "\\r"
  else String.singleton c

/-- Escape a whole string for `JSON.stringify`. -/
def escapeJsonString (s : String) : String := String.join (s.data.map escapeJsonChar)

mutual

/-- `JSON.stringify(v)` (compact form, as used for the `localStorage` writes).
`undefined` never reaches this function in the modelled program. -/
def jsonStringify : JsValue → String
  | .undefined => "null"
  | .null => "null"
  | .bool b => if b then "true" else "false"
  | .num n => toString n
  | .str s => "\"" ++ escapeJsonString s ++ "\""
  | .arr xs => "[" ++ jsonStringifyList xs ++ "]"
  | .obj fs => "\x7b" ++ jsonStringifyFields fs ++ "\x7d"

/-- Comma-separated stringification of array elements. -/
def jsonStringifyList : List JsValue → String
  | [] => ""
  | [x] => jsonStringify x
  | x :: y :: xs => jsonStringify x ++ "," ++ jsonStringifyList (y :: xs)

/-- Comma-separated stringification of object fields. -/
def jsonStringifyFields : List (String × JsValue) → String
  | [] => ""
  | [(k, v)] => "\"" ++ escapeJsonString k ++ "\":" ++ jsonStringify v
  | (k, v) :: f :: fs =>
    "\"" ++ escapeJsonString k ++ "\":" ++ jsonStringify v ++ "," ++ jsonStringifyFields (f :: fs)

end

/-- JavaScript `s.trim()`: drop leading and trailing whitespace (modelled
directly over the character list, so that it is kernel-executable). -/
def trimString (s : String) : String :=
  String.mk (((s.data.dropWhile Char.isWhitespace).reverse.dropWhile
    Char.isWhitespace).reverse)

/-- JavaScript `s.toLowerCase()` (modelled directly over the character list;
ASCII case mapping). -/
def toLowerString (s : String) : String := String.mk (s.data.map Char.toLower)

/-! ## Startup deserialization (script.js lines 59-61)

```js
let favorites = JSON.parse(localStorage.getItem('favorites')) || [];
let notes = JSON.parse(localStorage.getItem('notes')) || {};
let moods = JSON.parse(localStorage.getItem('moods')) || {};
```

A storage slot is modelled as `Option (Except Unit JsValue)`: `none` when the
slot is absent, `some r` when it holds a string whose `JSON.parse` outcome is
`r` (`Except.error ()` = the string is unparsable, which makes `JSON.parse`
throw — there is no try/catch at module top level).  `getItem` on an absent
slot returns `null`, and `JSON.parse(null)` parses the coerced string "null"
successfully to the value `null`. -/

/-- `JSON.parse(localStorage.getItem(slot))` for one slot. -/
def slotParse : Option (Except Unit JsValue) → Except Unit JsValue
  | none => .ok .null
  | some r => r

/-- The three top-level initializers, executed in source order; an exception
from any `JSON.parse` aborts the whole script (no collection is loaded). -/
def startupInit (favSlot noteSlot moodSlot : Option (Except Unit JsValue)) :
    Except Unit (JsValue × JsValue × JsValue) := do
  let f ← slotParse favSlot
  let n ← slotParse noteSlot
  let m ← slotParse moodSlot
  return (jsOr f (.arr []), jsOr n (.obj []), jsOr m (.obj []))

/-! ## Catalog and `loadHymns` (script.js lines 14-51, 211-231) -/

/-- A catalog item in the shape the sample data and rendering code use.
`lyrics` with value `""` models an absent/empty field (indistinguishable under
the `||` chains the code applies to it). -/
structure Hymn where
  id : Int
  title : String
  lyrics : String
  audio : String
  mood : String
  deriving DecidableEq, Repr

/-- The built-in fallback catalog `sampleHymns` (script.js lines 14-51). -/
def sampleHymns : List Hymn :=
  [ { id := 1, title := "Amazing Grace",
      lyrics := "Amazing grace! How sweet the sound\nThat saved a wretch like me! ...",
      audio := "audio/hymn1.mp3", mood := "worshipful" },
    { id := 2, title := "How Great Thou Art",
      lyrics := "O Lord my God, when I in awesome wonder ...",
      audio := "audio/hymn2.mp3", mood := "worshipful" },
    { id := 3, title := "Great Is Thy Faithfulness",
      lyrics := "Great is Thy faithfulness, O God my Father; ...",
      audio := "audio/hymn3.mp3", mood := "calm" },
    { id := 4, title := "It Is Well With My Soul",
      lyrics := "When peace, like a river, attendeth my way, ...",
      audio := "audio/hymn4.mp3", mood := "calm" },
    { id := 5, title := "Blessed Assurance",
      lyrics := "Blessed assurance, Jesus is mine! ...",
      audio := "audio/hymn5.mp3", mood := "happy" } ]

/-- A hymn as a JavaScript object value. -/
def Hymn.toJs (h : Hymn) : JsValue :=
  .obj [("id", .num h.id), ("title", .str h.title), ("lyrics", .str h.lyrics),
        ("audio", .str h.audio), ("mood", .str h.mood)]

/-- The sample catalog as the JavaScript value `sampleHymns.slice()`. -/
def sampleHymnsJs : List JsValue := sampleHymns.map Hymn.toJs

/-- Outcome of the `fetch('data/hymns.json')` / `res.json()` pair:
a network failure, a non-ok HTTP response (`!res.ok` makes the code throw),
a body that fails to parse as JSON, or a successfully parsed value. -/
inductive FetchOutcome where
  | networkError
  | httpError
  | jsonError
  | success (json : JsValue)

/-- `loadHymns` (script.js lines 211-231): result is the new `hymns` value
together with the toast message shown, if any.  The three failure outcomes
are caught by the try/catch and fall back to `sampleHymns.slice()` with a
toast; a successfully parsed payload is kept if it is an array and otherwise
replaced by the empty array (`Array.isArray(json) ? json : []`), with no
toast.  The function is total: it never throws to its caller. -/
def loadHymns : FetchOutcome → List JsValue × Option String
  | .networkError => (sampleHymnsJs, some "Using sample hymns (offline)")
  | .httpError => (sampleHymnsJs, some "Using sample hymns (offline)")
  | .jsonError => (sampleHymnsJs, some "Using sample hymns (offline)")
  | .success j =>
    match j with
    | .arr xs => (xs, none)
    | _ => ([], none)

/-! ## `toggleFavorite` (script.js lines 375-396) -/

/-- `JSON.stringify(favorites)` for a well-shaped favorites array. -/
def favStored (favs : List Int) : String := jsonStringify (.arr (favs.map .num))

/-- The `favorites` variable together with its `localStorage` slot
(serialized string; `none` = never written). -/
structure FavState where
  favorites : List Int
  storedFavorites : Option String
  deriving DecidableEq, Repr

/-- `toggleFavorite(hymnId)`: `indexOf` / `splice(idx, 1)` removes the first
occurrence when present (`List.erase`), `push` appends when absent; the full
updated array is written to storage synchronously.  The JavaScript function
has no return statement, so its value is `undefined` (second component).
The `Number(hymnId)` coercion is the identity on the numeric ids modelled
here. -/
def toggleFavorite (hymnId : Int) (st : FavState) : FavState × JsValue :=
  let favorites :=
    if st.favorites.contains hymnId then st.favorites.erase hymnId
    else st.favorites ++ [hymnId]
  ({ favorites := favorites, storedFavorites := some (favStored favorites) }, .undefined)

/-! ## `saveNote` (script.js lines 411-425) -/

/-- What `saveNote` reports via toast: `saved` = "Note saved",
`cleared` = "Note cleared", `noCurrent` = early return with no toast. -/
inductive SaveReport where
  | saved
  | cleared
  | noCurrent
  deriving DecidableEq, Repr

/-- The `notes` object (id → note text, insertion-ordered association list
with unique keys) together with its storage slot, holding the value whose
stringification was written (`none` = never written). -/
structure NoteState where
  notes : List (Int × String)
  storedNotes : Option (List (Int × String))
  deriving DecidableEq, Repr

/-- JavaScript object assignment `m[k] = v`: update in place when the key
exists, append otherwise. -/
def setKey (m : List (Int × String)) (k : Int) (v : String) : List (Int × String) :=
  if m.any (fun p => p.1 == k) then m.map (fun p => if p.1 == k then (k, v) else p)
  else m ++ [(k, v)]

/-- JavaScript `delete m[k]`. -/
def delKey (m : List (Int × String)) (k : Int) : List (Int × String) :=
  m.filter (fun p => !(p.1 == k))

/-- `saveNote()` (script.js lines 411-425): early return when no hymn is
open; otherwise trim the textarea value, upsert when non-empty ("Note
saved"), delete the entry when empty ("Note cleared"), and persist the whole
map synchronously. -/
def saveNote (currentHymn : Option Int) (textareaValue : String) (st : NoteState) :
    NoteState × SaveReport :=
  match currentHymn with
  | none => (st, .noCurrent)
  | some id =>
    let text := trimString textareaValue
    if text != "" then
      let notes := setKey st.notes id text
      ({ notes := notes, storedNotes := some notes }, .saved)
    else
      let notes := delKey st.notes id
      ({ notes := notes, storedNotes := some notes }, .cleared)

/-! ## Search filter (script.js lines 557-572) -/

/-- `lyricsCache.get(id)` (the cache is keyed by hymn id). -/
def lookupCache (cache : List (Int × String)) (id : Int) : Option String := cache.lookup id

/-- The JavaScript `a || b` operator restricted to strings. -/
def jsOrStr (a b : String) : String := if a != "" then a else b

/-- `hymn.lyrics || lyricsCache.get(hymn.id) || ''`: a `Map.get` miss yields
`undefined`, which `||` sends to the next alternative exactly like `""`. -/
def bodyText (h : Hymn) (cache : List (Int × String)) : String :=
  jsOrStr h.lyrics ((lookupCache cache h.id).getD "")

/-- Whether `pat` occurs as a contiguous run starting at some position of the
second list. -/
def includesFrom (pat : List Char) : List Char → Bool
  | [] => pat.isEmpty
  | c :: cs => pat.isPrefixOf (c :: cs) || includesFrom pat cs

/-- JavaScript `s.includes(q)`: `q` occurs as a contiguous substring. -/
def includesJs (s q : String) : Bool := includesFrom q.data s.data

/-- JavaScript `s.padStart(3, '0')`. -/
def padStart3 (s : String) : String :=
  if s.length ≥ 3 then s else String.mk (List.replicate (3 - s.length) '0') ++ s

/-- The per-hymn predicate inside `filterHymnsImmediate` (script.js lines
563-570), for an already lower-cased and trimmed non-empty query `q`. -/
def hymnMatches (q : String) (cache : List (Int × String)) (hymn : Hymn) : Bool :=
  let idStr := toString hymn.id
  if idStr == q || padStart3 idStr == q then true
  else if hymn.title != "" && includesJs (toLowerString hymn.title) q then true
  else
    let lyricsText := bodyText hymn cache
    lyricsText != "" && includesJs (toLowerString lyricsText) q

/-- `filterHymnsImmediate(query)` (script.js lines 557-572), as the list it
renders: `(query || '').toLowerCase().trim()`, full catalog when the
normalized query is empty, otherwise `hymns.filter(...)`. -/
def filterHymnsImmediate (query : String) (cache : List (Int × String)) (hymns : List Hymn) :
    List Hymn :=
  let q := trimString (toLowerString query)
  if q == "" then hymns else hymns.filter (hymnMatches q cache)

/-! ## Mood projection (script.js lines 442-448) -/

/-- `updateMoodDisplay` (script.js lines 442-448), as the list it renders:
`moods[h.id] === currentMoodFilter` (a missing entry is `undefined`, which
never equals a string label), with the whole catalog when the filter is
falsy or `'all'`. -/
def updateMoodDisplay (hymns : List Hymn) (moods : List (Int × String))
    (currentMoodFilter : String) : List Hymn :=
  if currentMoodFilter != "" && currentMoodFilter != "all" then
    hymns.filter (fun h =>
      match moods.lookup h.id with
      | some m => m == currentMoodFilter
      | none => false)
  else hymns

/-! ## Export / import (script.js lines 451-495) -/

/-- The live annotation collections (dynamically typed, as the JavaScript
variables are) together with their three storage slots. -/
structure AppData where
  favorites : JsValue
  notes : JsValue
  moods : JsValue
  storedFavorites : Option String
  storedNotes : Option String
  storedMoods : Option String

/-- The document built by `exportData` (script.js line 452):
`{ favorites, notes, moods }`.  It is then serialized
(`JSON.stringify(data, null, 2)`) into the downloaded blob, so the artifact
handed to the user is a string with no aliasing into the live collections. -/
def exportData (st : AppData) : JsValue :=
  .obj [("favorites", st.favorites), ("notes", st.notes), ("moods", st.moods)]

/-- The `reader.onload` body of `importData` (script.js lines 473-491), from
the `JSON.parse` outcome of the chosen file.  A parse error is caught
("Import failed", state untouched); a parsed `null` (or the impossible
`undefined`) makes the first property access throw, which the same catch
handles.  Otherwise:
`favorites = Array.isArray(data.favorites) ? data.favorites : favorites`,
`notes = data.notes || notes`, `moods = data.moods || moods`, then all three
slots are rewritten.  The boolean is `true` when the "Data imported" toast is
reached. -/
def importData (parsed : Except Unit JsValue) (st : AppData) : AppData × Bool :=
  match parsed with
  | .error _ => (st, false)
  | .ok data =>
    match data with
    | .null => (st, false)
    | .undefined => (st, false)
    | _ =>
      let favorites :=
        if (data.getField "favorites").isArray then data.getField "favorites" else st.favorites
      let notes := jsOr (data.getField "notes") st.notes
      let moods := jsOr (data.getField "moods") st.moods
      ({ favorites := favorites, notes := notes, moods := moods,
         storedFavorites := some (jsonStringify favorites),
         storedNotes := some (jsonStringify notes),
         storedMoods := some (jsonStringify moods) }, true)

/-! ## `escapeHtml` and the hymn card (script.js lines 139-173) -/

/-- The replacement applied to each character by
`text.replace(/[&<>"']/g, m => ({...}[m]))`. -/
def escapeHtmlChar (c : Char) : String :=
  if c = '&' then "&amp;"
  else if c = '<' then "&lt;"
  else if c = '>' then "&gt;"
  else if c = '"' then "&quot;"
  else if c = '\'' then "&#39;"
  else String.singleton c

/-- The global replace, character by character. -/
def escapeHtmlList : List Char → String
  | [] => ""
  | c :: cs => escapeHtmlChar c ++ escapeHtmlList cs

/-- `escapeHtml(text)` (script.js lines 170-173).  The argument is `Option
String`: `none` models a `null`/`undefined` argument, which the `if (!text)
return ''` guard sends to the empty string (as it does `""`). -/
def escapeHtml (text : Option String) : String :=
  match text with
  | none => ""
  | some s => if s == "" then "" else escapeHtmlList s.data

/-- The `innerHTML` template of `createHymnCardDOM` (script.js lines
148-165), with each `${...}` interpolation spelled out: the id is embedded
raw (it is a number), the title and the 100-character lyrics preview only
through `escapeHtml`. -/
def createHymnCardHTML (hymn : Hymn) (favorites : List Int) (cache : List (Int × String)) :
    String :=
  let favActive := if favorites.contains hymn.id then " active" else ""
  let preview := (bodyText hymn cache).take 100
  "\n        <div class=\"hymn-number\">" ++ toString hymn.id ++ "</div>\n" ++
  "        <div class=\"hymn-image\"><i class=\"fas fa-music\"></i></div>\n" ++
  "        <div class=\"hymn-content\">\n" ++
  "            <h3 class=\"hymn-title\">" ++ escapeHtml (some hymn.title) ++ "</h3>\n" ++
  "            <p class=\"hymn-preview\">" ++ escapeHtml (some preview) ++
  (if preview != "" then "..." else "Lyrics not available") ++ "</p>\n" ++
  "            <div class=\"hymn-actions\">\n" ++
  "                <button class=\"favorite" ++ favActive ++
  "\" data-action=\"favorite\" data-id=\"" ++ toString hymn.id ++ "\">\n" ++
  "                    <i class=\"" ++
  (if favorites.contains hymn.id then "fas" else "far") ++ " fa-heart\"></i>\n" ++
  "                    <span>Favorite</span>\n" ++
  "                </button>\n" ++
  "                <button class=\"play\" data-action=\"play\" data-id=\"" ++
  toString hymn.id ++ "\">\n" ++
  "                    <i class=\"fas fa-play\"></i>\n" ++
  "                    <span>Play</span>\n" ++
  "                </button>\n" ++
  "            </div>\n" ++
  "        </div>\n    "

/-! ## Specification-shaped predicates and sanitization measures -/

/-- The specification's wording of a text-filter match, for an already
lower-cased and trimmed non-empty query `q`: the id as decimal string equals
the query, or the id zero-padded to 3 digits equals the query, or the title
contains the query as a case-insensitive substring, or the body (inline or
cached) contains the query as a case-insensitive substring.  To be compared
with `hymnMatches`, which is taken from the source. -/
def matchesQuerySpec (q : String) (cache : List (Int × String)) (h : Hymn) : Prop :=
  toString h.id = q ∨ padStart3 (toString h.id) = q ∨
  includesJs (toLowerString h.title) q = true ∨
  includesJs (toLowerString (bodyText h cache)) q = true

instance (q : String) (cache : List (Int × String)) (h : Hymn) :
    Decidable (matchesQuerySpec q cache h) := by
  unfold matchesQuerySpec
  infer_instance

/-- The four characters that must never appear raw in HTML-escaped output. -/
def badChar (c : Char) : Bool := c == '<' || c == '>' || c == '"' || c == '\''

/-- Whether a character list begins with the tail of one of the five
entities emitted by `escapeHtmlChar` (after the leading ampersand). -/
def entityTail : List Char → Bool
  | 'a' :: 'm' :: 'p' :: ';' :: _ => true
  | 'l' :: 't' :: ';' :: _ => true
  | 'g' :: 't' :: ';' :: _ => true
  | 'q' :: 'u' :: 'o' :: 't' :: ';' :: _ => true
  | '#' :: '3' :: '9' :: ';' :: _ => true
  | _ => false

/-- Every ampersand in the list starts one of the five entities. -/
def ampClean : List Char → Bool
  | [] => true
  | c :: cs => (!(c == '&') || entityTail cs) && ampClean cs

/-- Occurrences of a character in a string. -/
def countChar (c : Char) (s : String) : Nat := s.data.count c

/-! ## Inputs used by witnesses and counterexamples -/

/-- A catalog whose order is non-sequential by id. -/
def moodCatalog : List Hymn :=
  [ { id := 3, title := "C", lyrics := "", audio := "", mood := "" },
    { id := 1, title := "A", lyrics := "", audio := "", mood := "" },
    { id := 2, title := "B", lyrics := "", audio := "", mood := "" } ]

/-- The catalog item of the query-matching scenario: id 7, title
"Grace Abounds". -/
def graceHymn : Hymn :=
  { id := 7, title := "Grace Abounds", lyrics := "", audio := "", mood := "" }

/-- A prior annotation state for the import scenario: non-trivial favorites,
notes and moods, with storage in sync. -/
def importPriorState : AppData :=
  { favorites := .arr [.num 9],
    notes := .obj [("1", .str "x")],
    moods := .obj [("2", .str "calm")],
    storedFavorites := some (jsonStringify (.arr [.num 9])),
    storedNotes := some (jsonStringify (.obj [("1", .str "x")])),
    storedMoods := some (jsonStringify (.obj [("2", .str "calm")])) }

/-- The import document of the scenario:
`{favorites:[1,2], notes: "not-an-object"}`. -/
def importDoc : JsValue :=
  .obj [("favorites", .arr [.num 1, .num 2]), ("notes", .str "not-an-object")]

/-- An annotation state with storage in sync, for the round-trip witness. -/
def roundtripState : AppData :=
  { favorites := .arr [.num 1, .num 4],
    notes := .obj [("1", .str "hello")],
    moods := .obj [("4", .str "calm")],
    storedFavorites := some (jsonStringify (.arr [.num 1, .num 4])),
    storedNotes := some (jsonStringify (.obj [("1", .str "hello")])),
    storedMoods := some (jsonStringify (.obj [("4", .str "calm")])) }

/-! ## Theorems -/

/-- `jsOr` of a value with itself is that value. -/
theorem jsOr_self (a : JsValue) : jsOr a a = a := by
  unfold jsOr; split <;> rfl

/-- The match body of `updateMoodDisplay` agrees with the specification-shaped
predicate "the MoodMap entry for this id equals the label". -/
theorem moodMatch_eq (moods : List (Int × String)) (label : String) (h : Hymn) :
    (match moods.lookup h.id with
      | some m => m == label
      | none => false) = decide (moods.lookup h.id = some label) := by
  cases hm : moods.lookup h.id with
  | none => simp
  | some m => by_cases he : m = label <;> simp [he]

/-- C8: for every catalog and MoodMap, the mood projection for a label
returns exactly the catalog items whose MoodMap entry equals that label, as a
sublist of the catalog (hence in catalog order, also when catalog order is
non-sequential by id); the label "all" returns the full catalog. -/
theorem updateMoodDisplay_spec (hymns : List Hymn) (moods : List (Int × String))
    (label : String) (hne : label ≠ "") (hall : label ≠ "all") :
    updateMoodDisplay hymns moods "all" = hymns ∧
    updateMoodDisplay hymns moods label
      = hymns.filter (fun h => decide (moods.lookup h.id = some label)) ∧
    (updateMoodDisplay hymns moods label).Sublist hymns := by
  refine ⟨by simp [updateMoodDisplay], ?_, ?_⟩
  · have hc : (label != "" && label != "all") = true := by simp [hne, hall]
    simp only [updateMoodDisplay, hc, if_pos]
    exact List.filter_congr fun h _ => moodMatch_eq moods label h
  · unfold updateMoodDisplay
    split
    · exact List.filter_sublist _
    · exact List.Sublist.refl _

/-- Witness for C8, the spec's scenario: `mood:calm` on a catalog ordered
3, 1, 2 with moods 3 ↦ calm and 2 ↦ calm selects items 3 and 2 in catalog
order. -/
theorem updateMoodDisplay_spec_witness :
    updateMoodDisplay moodCatalog [(3, "calm"), (2, "calm")] "calm"
      = [ { id := 3, title := "C", lyrics := "", audio := "", mood := "" },
          { id := 2, title := "B", lyrics := "", audio := "", mood := "" } ] := by
  rw [(updateMoodDisplay_spec moodCatalog [(3, "calm"), (2, "calm")] "calm"
        (by decide) (by decide)).2.1]
  decide

/-- C3 counterexample: a successfully parsed payload that is not a list gives
an empty catalog, not the built-in sample catalog. -/
theorem loadHymns_nonlist_counterexample :
    (loadHymns (.success (.obj []))).1 = [] ∧
    sampleHymnsJs ≠ [] ∧
    (loadHymns (.success (.obj []))).1 ≠ sampleHymnsJs := by
  have hlen : sampleHymnsJs.length = 5 := rfl
  refine ⟨rfl, ?_, ?_⟩
  · intro h
    rw [h] at hlen
    exact absurd hlen (by decide)
  · intro h
    rw [← h] at hlen
    exact absurd hlen (by decide)

/-- C3 amended: `loadHymns` is total (never throws); a network error, non-ok
response or JSON parse error falls back to the sample catalog with a toast; a
successfully parsed array becomes the catalog; a successfully parsed
non-array yields the empty catalog with no toast. -/
theorem loadHymns_spec :
    loadHymns .networkError = (sampleHymnsJs, some "Using sample hymns (offline)") ∧
    loadHymns .httpError = (sampleHymnsJs, some "Using sample hymns (offline)") ∧
    loadHymns .jsonError = (sampleHymnsJs, some "Using sample hymns (offline)") ∧
    (∀ xs, loadHymns (.success (.arr xs)) = (xs, none)) ∧
    (∀ v, v.isArray = false → loadHymns (.success v) = ([], none)) ∧
    sampleHymnsJs.length = 5 := by
  refine ⟨rfl, rfl, rfl, fun xs => rfl, ?_, rfl⟩
  intro v hv
  cases v with
  | arr xs => exact absurd hv (by simp [JsValue.isArray])
  | undefined => rfl
  | null => rfl
  | bool b => rfl
  | num n => rfl
  | str s => rfl
  | obj fs => rfl

/-- Witness for C3 amended, at the non-array payload `{}` and an array
payload. -/
theorem loadHymns_spec_witness :
    loadHymns (.success (.obj [])) = ([], none) ∧
    loadHymns (.success (.arr [.num 3])) = ([.num 3], none) :=
  ⟨loadHymns_spec.2.2.2.2.1 (.obj []) rfl, loadHymns_spec.2.2.2.1 [.num 3]⟩

/-- C2 counterexample: valid persisted favorites `[1]` together with
unparsable persisted notes do not yield loaded favorites and empty notes —
the `JSON.parse` exception aborts the whole initialization. -/
theorem startupInit_counterexample :
    startupInit (some (.ok (.arr [.num 1]))) (some (.error ())) (some (.ok (.obj [])))
      = .error () ∧
    startupInit (some (.ok (.arr [.num 1]))) (some (.error ())) (some (.ok (.obj [])))
      ≠ .ok (.arr [.num 1], .obj [], .obj []) :=
  ⟨rfl, fun h => Except.noConfusion h⟩

/-- C2 amended: when all three slots parse, each collection defaults to its
empty form exactly when its parsed value is falsy (in particular when the
slot is absent), independently of the others; but when any slot holds an
unparsable value, startup initialization throws and no collection is
loaded. -/
theorem startupInit_spec (fs ns ms : Option (Except Unit JsValue)) :
    (∀ f n m, slotParse fs = .ok f → slotParse ns = .ok n → slotParse ms = .ok m →
      startupInit fs ns ms = .ok (jsOr f (.arr []), jsOr n (.obj []), jsOr m (.obj []))) ∧
    (slotParse fs = .error () → startupInit fs ns ms = .error ()) ∧
    (slotParse ns = .error () → startupInit fs ns ms = .error ()) ∧
    (slotParse ms = .error () → startupInit fs ns ms = .error ()) ∧
    startupInit none none none = .ok (.arr [], .obj [], .obj []) := by
  refine ⟨?_, ?_, ?_, ?_, rfl⟩
  · intro f n m hf hn hm
    unfold startupInit
    rw [hf, hn, hm]
    rfl
  · intro hf
    unfold startupInit
    rw [hf]
    rfl
  · intro hn
    unfold startupInit
    rw [hn]
    cases hfs : slotParse fs with
    | ok f => rfl
    | error e => rfl
  · intro hm
    unfold startupInit
    rw [hm]
    cases hfs : slotParse fs with
    | ok f =>
      cases hns : slotParse ns with
      | ok n => rfl
      | error e => rfl
    | error e => rfl

/-- Witness for C2 amended: favorites slot `[1]`, notes slot absent, moods
slot `0` (falsy) — favorites loaded, notes and moods empty; and the same
favorites slot with an unparsable notes slot aborts. -/
theorem startupInit_spec_witness :
    startupInit (some (.ok (.arr [.num 1]))) none (some (.ok (.num 0)))
      = .ok (.arr [.num 1], .obj [], .obj []) ∧
    startupInit (some (.ok (.arr [.num 1]))) (some (.error ())) none = .error () :=
  ⟨(startupInit_spec (some (.ok (.arr [.num 1]))) none (some (.ok (.num 0)))).1
      (.arr [.num 1]) .null (.num 0) rfl rfl rfl,
   (startupInit_spec (some (.ok (.arr [.num 1]))) (some (.error ())) none).2.2.1 rfl⟩

/-- C1 counterexample: importing `{favorites:[1,2], notes: "not-an-object"}`
over a prior state replaces `notes` with the string `"not-an-object"` instead
of keeping the prior mapping (the code tests `data.notes || notes`, i.e.
truthiness, not shape). -/
theorem importData_shape_counterexample :
    (importData (.ok importDoc) importPriorState).1.notes = JsValue.str "not-an-object" ∧
    importPriorState.notes = JsValue.obj [("1", JsValue.str "x")] ∧
    JsValue.str "not-an-object" ≠ JsValue.obj [("1", JsValue.str "x")] ∧
    (importData (.ok importDoc) importPriorState).1.favorites
      = JsValue.arr [.num 1, .num 2] ∧
    (importData (.ok importDoc) importPriorState).1.moods = importPriorState.moods :=
  ⟨rfl, rfl, fun h => JsValue.noConfusion h, rfl, rfl⟩

/-- C1 amended: for a parsed import document (not `null`), `importData`
replaces favorites exactly when `data.favorites` is an array; it replaces
notes (resp. moods) with `data.notes` (resp. `data.moods`) whenever that
field is truthy — regardless of its shape — and keeps the prior collection
only when the field is absent or falsy; it persists the merged collections
and reports success. -/
theorem importData_merge (data : JsValue) (st : AppData)
    (hnull : data ≠ JsValue.null) (hundef : data ≠ JsValue.undefined) :
    ((data.getField "favorites").isArray = true →
      (importData (.ok data) st).1.favorites = data.getField "favorites") ∧
    ((data.getField "favorites").isArray = false →
      (importData (.ok data) st).1.favorites = st.favorites) ∧
    ((data.getField "notes").truthy = true →
      (importData (.ok data) st).1.notes = data.getField "notes") ∧
    ((data.getField "notes").truthy = false →
      (importData (.ok data) st).1.notes = st.notes) ∧
    ((data.getField "moods").truthy = true →
      (importData (.ok data) st).1.moods = data.getField "moods") ∧
    ((data.getField "moods").truthy = false →
      (importData (.ok data) st).1.moods = st.moods) ∧
    (importData (.ok data) st).2 = true ∧
    (importData (.ok data) st).1.storedFavorites
      = some (jsonStringify (importData (.ok data) st).1.favorites) ∧
    (importData (.ok data) st).1.storedNotes
      = some (jsonStringify (importData (.ok data) st).1.notes) ∧
    (importData (.ok data) st).1.storedMoods
      = some (jsonStringify (importData (.ok data) st).1.moods) := by
  have hred : importData (.ok data) st =
      ({ favorites :=
           if (data.getField "favorites").isArray then data.getField "favorites"
           else st.favorites,
         notes := jsOr (data.getField "notes") st.notes,
         moods := jsOr (data.getField "moods") st.moods,
         storedFavorites := some (jsonStringify
           (if (data.getField "favorites").isArray then data.getField "favorites"
            else st.favorites)),
         storedNotes := some (jsonStringify (jsOr (data.getField "notes") st.notes)),
         storedMoods := some (jsonStringify (jsOr (data.getField "moods") st.moods)) },
       true) := by
    cases data with
    | null => exact absurd rfl hnull
    | undefined => exact absurd rfl hundef
    | bool b => rfl
    | num n => rfl
    | str s => rfl
    | arr xs => rfl
    | obj fls => rfl
  rw [hred]
  refine ⟨fun h => by simp [h], fun h => by simp [h],
          fun h => by simp [jsOr, h], fun h => by simp [jsOr, h],
          fun h => by simp [jsOr, h], fun h => by simp [jsOr, h],
          rfl, rfl, rfl, rfl⟩

/-- Witness for C1 amended, at the scenario document: favorites (an array) is
taken, notes (truthy non-mapping) is taken, moods (absent, falsy) is kept. -/
theorem importData_merge_witness :
    (importData (.ok importDoc) importPriorState).1.favorites
      = importDoc.getField "favorites" ∧
    (importData (.ok importDoc) importPriorState).1.notes
      = importDoc.getField "notes" ∧
    (importData (.ok importDoc) importPriorState).1.moods = importPriorState.moods := by
  have h := importData_merge importDoc importPriorState
    (fun h => JsValue.noConfusion h) (fun h => JsValue.noConfusion h)
  exact ⟨h.1 rfl, h.2.2.1 rfl, h.2.2.2.2.2.1 rfl⟩

/-- `List.contains` is false on a non-member. -/
theorem contains_eq_false_of_not_mem {l : List Int} {a : Int} (h : a ∉ l) :
    l.contains a = false := by
  cases hc : l.contains a
  · rfl
  · exact absurd (by simpa using hc) h

/-- Reduction of `toggleFavorite` when the id is present. -/
theorem toggleFavorite_eq_of_mem (id : Int) (st : FavState)
    (hc : st.favorites.contains id = true) :
    toggleFavorite id st
      = ({ favorites := st.favorites.erase id,
           storedFavorites := some (favStored (st.favorites.erase id)) }, .undefined) := by
  unfold toggleFavorite
  simp only [hc]
  rfl

/-- Reduction of `toggleFavorite` when the id is absent. -/
theorem toggleFavorite_eq_of_not_mem (id : Int) (st : FavState)
    (hc : st.favorites.contains id = false) :
    toggleFavorite id st
      = ({ favorites := st.favorites ++ [id],
           storedFavorites := some (favStored (st.favorites ++ [id])) }, .undefined) := by
  unfold toggleFavorite
  simp only [hc]
  rfl

/-- C4 counterexample: `toggleFavorite` has no return statement, so after
adding an absent id its value is `undefined`, not the new membership boolean
`true`. -/
theorem toggleFavorite_return_counterexample :
    1 ∈ (toggleFavorite 1 { favorites := [], storedFavorites := none }).1.favorites ∧
    (toggleFavorite 1 { favorites := [], storedFavorites := none }).2 = JsValue.undefined ∧
    (toggleFavorite 1 { favorites := [], storedFavorites := none }).2 ≠ JsValue.bool true :=
  ⟨by decide, rfl, fun h => JsValue.noConfusion h⟩

/-- C4 amended: for every id and duplicate-free prior FavoriteSet,
`toggleFavorite` appends the id when absent and removes it when present
(flipping membership), and persists the full updated array synchronously;
but the function returns `undefined`, not the membership boolean. -/
theorem toggleFavorite_spec (id : Int) (st : FavState) (hnd : st.favorites.Nodup) :
    (id ∉ st.favorites → (toggleFavorite id st).1.favorites = st.favorites ++ [id]) ∧
    (id ∈ st.favorites → (toggleFavorite id st).1.favorites = st.favorites.erase id) ∧
    (id ∈ (toggleFavorite id st).1.favorites ↔ id ∉ st.favorites) ∧
    (toggleFavorite id st).1.storedFavorites
      = some (favStored (toggleFavorite id st).1.favorites) ∧
    (toggleFavorite id st).2 = JsValue.undefined := by
  by_cases hm : id ∈ st.favorites
  · have hc : st.favorites.contains id = true := by simp [hm]
    rw [toggleFavorite_eq_of_mem id st hc]
    refine ⟨fun hn => absurd hm hn, fun _ => rfl, ?_, rfl, rfl⟩
    simp [hnd.mem_erase_iff, hm]
  · have hc : st.favorites.contains id = false := contains_eq_false_of_not_mem hm
    rw [toggleFavorite_eq_of_not_mem id st hc]
    refine ⟨fun _ => rfl, fun hin => absurd hin hm, ?_, rfl, rfl⟩
    simp [hm]

/-- Witness for C4 amended: toggling 2 on the duplicate-free set `[5]` yields
`[5, 2]` with membership flipped to present and the array persisted. -/
theorem toggleFavorite_spec_witness :
    (toggleFavorite 2 { favorites := [5], storedFavorites := none }).1.favorites
      = [5, 2] ∧
    (2 ∈ (toggleFavorite 2 { favorites := [5], storedFavorites := none }).1.favorites
      ↔ 2 ∉ ([5] : List Int)) ∧
    (toggleFavorite 2 { favorites := [5], storedFavorites := none }).1.storedFavorites
      = some (favStored [5, 2]) := by
  have h := toggleFavorite_spec 2 { favorites := [5], storedFavorites := none } (by decide)
  refine ⟨h.1 (by decide), h.2.2.1, ?_⟩
  rw [h.2.2.2.1, h.1 (by decide)]
  rfl

/-- C5 counterexample: starting from favorites `[3,1,2]` (persisted as
`"[3,1,2]"`), toggling the present id 1 twice yields `[3,2,1]` — membership
is restored but the persisted serialized value `"[3,2,1]"` differs from the
original `"[3,1,2]"`. -/
theorem toggleFavorite_twice_counterexample :
    (toggleFavorite 1 (toggleFavorite 1
        { favorites := [3, 1, 2], storedFavorites := some (favStored [3, 1, 2]) }).1).1.favorites
      = [3, 2, 1] ∧
    (toggleFavorite 1 (toggleFavorite 1
        { favorites := [3, 1, 2], storedFavorites := some (favStored [3, 1, 2]) }).1).1.storedFavorites
      = some "[3,2,1]" ∧
    favStored [3, 1, 2] = "[3,1,2]" ∧
    (some "[3,2,1]" : Option String) ≠ some "[3,1,2]" :=
  ⟨by decide, by decide, by decide, by decide⟩

/-- C5 amended: for every id and duplicate-free prior state, toggling twice
restores the original membership; when the id was absent (and the slot was in
sync) the whole state — list and persisted content — is restored exactly; when
the id was present the id is moved to the end of the array, so the persisted
serialization need not be restored (see the counterexample). -/
theorem toggleFavorite_twice (id : Int) (st : FavState) (hnd : st.favorites.Nodup) :
    (∀ x, x ∈ (toggleFavorite id (toggleFavorite id st).1).1.favorites
      ↔ x ∈ st.favorites) ∧
    (id ∉ st.favorites → st.storedFavorites = some (favStored st.favorites) →
      (toggleFavorite id (toggleFavorite id st).1).1 = st) ∧
    (id ∈ st.favorites →
      (toggleFavorite id (toggleFavorite id st).1).1.favorites
        = st.favorites.erase id ++ [id]) := by
  by_cases hm : id ∈ st.favorites
  · have hc : st.favorites.contains id = true := by simp [hm]
    have hnotm : id ∉ st.favorites.erase id := by simp [hnd.mem_erase_iff]
    have hc2 : (st.favorites.erase id).contains id = false :=
      contains_eq_false_of_not_mem hnotm
    have h2 : (toggleFavorite id (toggleFavorite id st).1).1.favorites
        = st.favorites.erase id ++ [id] := by
      rw [toggleFavorite_eq_of_mem id st hc]
      show (toggleFavorite id
        (⟨st.favorites.erase id, some (favStored (st.favorites.erase id))⟩ : FavState)).1.favorites
        = st.favorites.erase id ++ [id]
      rw [toggleFavorite_eq_of_not_mem id
        (⟨st.favorites.erase id, some (favStored (st.favorites.erase id))⟩ : FavState) hc2]
    refine ⟨?_, fun hn _ => absurd hm hn, fun _ => h2⟩
    intro x
    rw [h2]
    by_cases hx : x = id
    · subst hx
      simp [hm]
    · simp [List.mem_append, List.mem_erase_of_ne hx, hx]
  · have hc : st.favorites.contains id = false := contains_eq_false_of_not_mem hm
    have hc2 : (st.favorites ++ [id]).contains id = true := by simp
    have herase : (st.favorites ++ [id]).erase id = st.favorites := by
      rw [List.erase_append_right _ hm]
      simp
    have h2 : (toggleFavorite id (toggleFavorite id st).1).1
        = { favorites := st.favorites,
            storedFavorites := some (favStored st.favorites) } := by
      rw [toggleFavorite_eq_of_not_mem id st hc]
      show (toggleFavorite id
        (⟨st.favorites ++ [id], some (favStored (st.favorites ++ [id]))⟩ : FavState)).1
        = _
      rw [toggleFavorite_eq_of_mem id
        (⟨st.favorites ++ [id], some (favStored (st.favorites ++ [id]))⟩ : FavState) hc2]
      show (⟨(st.favorites ++ [id]).erase id,
        some (favStored ((st.favorites ++ [id]).erase id))⟩ : FavState) = _
      rw [herase]
    refine ⟨?_, ?_, fun hin => absurd hin hm⟩
    · intro x
      rw [h2]
    · intro _ hstored
      rw [h2, ← hstored]

/-- Witness for C5 amended: toggling the absent id 9 twice on `[3,1,2]` with
the slot in sync restores the state exactly. -/
theorem toggleFavorite_twice_witness :
    (toggleFavorite 9 (toggleFavorite 9
        { favorites := [3, 1, 2], storedFavorites := some (favStored [3, 1, 2]) }).1).1
      = { favorites := [3, 1, 2], storedFavorites := some (favStored [3, 1, 2]) } :=
  (toggleFavorite_twice 9
      { favorites := [3, 1, 2], storedFavorites := some (favStored [3, 1, 2]) }
      (by decide)).2.1 (by decide) rfl

/-- C9: when the three storage slots are in sync with the live collections
(as every mutating operation leaves them), importing the document produced by
`exportData` is a no-op: the live favorites, notes and moods and all three
persisted values are unchanged, and the operation reports success.  The
exported artifact itself is the serialization of this document — a string,
sharing no structure with the live collections. -/
theorem export_import_roundtrip (st : AppData)
    (hf : st.storedFavorites = some (jsonStringify st.favorites))
    (hn : st.storedNotes = some (jsonStringify st.notes))
    (hm : st.storedMoods = some (jsonStringify st.moods)) :
    importData (.ok (exportData st)) st = (st, true) := by
  obtain ⟨fav, nts, mds, sf, sn, sm⟩ := st
  simp only at hf hn hm
  subst hf hn hm
  have k1 : (("notes" : String) == "favorites") = false := rfl
  have k2 : (("moods" : String) == "favorites") = false := rfl
  have k3 : (("moods" : String) == "notes") = false := rfl
  simp [importData, exportData, JsValue.getField, List.lookup, jsOr_self, k1, k2, k3]

/-- Witness for C9 at a concrete in-sync state. -/
theorem export_import_roundtrip_witness :
    importData (.ok (exportData roundtripState)) roundtripState = (roundtripState, true) :=
  export_import_roundtrip roundtripState rfl rfl rfl

/-- Looking up the written key after a JavaScript object update on an
existing key. -/
theorem lookup_map_update (m : List (Int × String)) (k : Int) (v : String)
    (h : m.any (fun p => p.1 == k) = true) :
    (m.map (fun p => if p.1 == k then (k, v) else p)).lookup k = some v := by
  induction m with
  | nil => simp at h
  | cons p ps ih =>
    obtain ⟨a, b⟩ := p
    rw [List.map_cons]
    by_cases hp : a = k
    · have hp2 : ((a, b).1 == k) = true := by simp [hp]
      rw [if_pos hp2]
      simp [List.lookup]
    · have hp2 : ((a, b).1 == k) = false := by simp [hp]
      rw [if_neg (by simp [hp2])]
      have hk : (k == a) = false := by simp [Ne.symm hp]
      have hany : ps.any (fun p => p.1 == k) = true := by
        simpa [List.any_cons, hp2] using h
      simpa [List.lookup, hk] using ih hany

/-- A JavaScript object update on an existing key leaves other keys
unchanged. -/
theorem lookup_map_update_ne (m : List (Int × String)) (k j : Int) (v : String)
    (hne : j ≠ k) :
    (m.map (fun p => if p.1 == k then (k, v) else p)).lookup j = m.lookup j := by
  induction m with
  | nil => rfl
  | cons p ps ih =>
    obtain ⟨a, b⟩ := p
    rw [List.map_cons]
    by_cases hp : a = k
    · have hp2 : ((a, b).1 == k) = true := by simp [hp]
      rw [if_pos hp2]
      have hj : (j == k) = false := by simp [hne]
      have hj2 : (j == a) = false := by simp [hp, hne]
      simpa [List.lookup, hj, hj2] using ih
    · have hp2 : ((a, b).1 == k) = false := by simp [hp]
      rw [if_neg (by simp [hp2])]
      by_cases hj : j = a
      · have hj2 : (j == a) = true := by simp [hj]
        simp [List.lookup, hj2]
      · have hj2 : (j == a) = false := by simp [hj]
        simpa [List.lookup, hj2] using ih

/-- Looking up the appended key after a JavaScript object insert of a fresh
key. -/
theorem lookup_append_single (m : List (Int × String)) (k : Int) (v : String)
    (h : m.any (fun p => p.1 == k) = false) :
    (m ++ [(k, v)]).lookup k = some v := by
  induction m with
  | nil => simp [List.lookup]
  | cons p ps ih =>
    simp only [List.any_cons, Bool.or_eq_false_iff] at h
    have hk : (k == p.1) = false := by
      have hne : p.1 ≠ k := by simpa using h.1
      simp [Ne.symm hne]
    simp [List.lookup, hk, ih h.2]

/-- A JavaScript object insert of a fresh key leaves other keys unchanged. -/
theorem lookup_append_single_ne (m : List (Int × String)) (k j : Int) (v : String)
    (hne : j ≠ k) : (m ++ [(k, v)]).lookup j = m.lookup j := by
  induction m with
  | nil =>
    have hj : (j == k) = false := by simp [hne]
    simp [List.lookup, hj]
  | cons p ps ih =>
    by_cases hj : j = p.1
    · have hj2 : (j == p.1) = true := by simp [hj]
      simp [List.lookup, hj2]
    · have hj2 : (j == p.1) = false := by simp [hj]
      simp [List.lookup, hj2, ih]

/-- A `setKey` update makes the written key map to the written value. -/
theorem lookup_setKey_self (m : List (Int × String)) (k : Int) (v : String) :
    (setKey m k v).lookup k = some v := by
  by_cases h : m.any (fun p => p.1 == k) = true
  · simp only [setKey, h, if_pos]
    exact lookup_map_update m k v h
  · have hf : m.any (fun p => p.1 == k) = false := by
      cases hc : m.any (fun p => p.1 == k)
      · rfl
      · exact absurd hc h
    simp only [setKey, hf]
    exact lookup_append_single m k v hf

/-- A `setKey` update leaves every other key unchanged. -/
theorem lookup_setKey_ne (m : List (Int × String)) (k j : Int) (v : String)
    (hne : j ≠ k) : (setKey m k v).lookup j = m.lookup j := by
  unfold setKey
  split
  · exact lookup_map_update_ne m k j v hne
  · exact lookup_append_single_ne m k j v hne

/-- A `delKey` delete removes the key. -/
theorem lookup_delKey_self (m : List (Int × String)) (k : Int) :
    (delKey m k).lookup k = none := by
  induction m with
  | nil => rfl
  | cons p ps ih =>
    by_cases hp : p.1 = k
    · have hp2 : (p.1 == k) = true := by simp [hp]
      simp [delKey, List.filter_cons, hp2] at ih ⊢
      exact ih
    · have hp2 : (p.1 == k) = false := by simp [hp]
      have hk : (k == p.1) = false := by simp [Ne.symm hp]
      simp [delKey, List.filter_cons, hp2, List.lookup, hk] at ih ⊢
      exact ih

/-- A `delKey` delete leaves every other key unchanged. -/
theorem lookup_delKey_ne (m : List (Int × String)) (k j : Int) (hne : j ≠ k) :
    (delKey m k).lookup j = m.lookup j := by
  induction m with
  | nil => rfl
  | cons p ps ih =>
    by_cases hp : p.1 = k
    · have hp2 : (p.1 == k) = true := by simp [hp]
      have hj : (j == p.1) = false := by
        rw [hp]
        simp [hne]
      simp [delKey, List.filter_cons, hp2, List.lookup, hj] at ih ⊢
      exact ih
    · have hp2 : (p.1 == k) = false := by simp [hp]
      by_cases hj : j = p.1
      · have hj2 : (j == p.1) = true := by simp [hj]
        simp [delKey, List.filter_cons, hp2, List.lookup, hj2]
      · have hj2 : (j == p.1) = false := by simp [hj]
        simp [delKey, List.filter_cons, hp2, List.lookup, hj2] at ih ⊢
        exact ih

/-- Reduction of `saveNote` in the non-empty branch. -/
theorem saveNote_eq_saved (id : Int) (text : String) (st : NoteState)
    (h : (trimString text != "") = true) :
    saveNote (some id) text st
      = ({ notes := setKey st.notes id (trimString text),
           storedNotes := some (setKey st.notes id (trimString text)) }, .saved) := by
  unfold saveNote
  simp only [h]
  rfl

/-- Reduction of `saveNote` in the empty branch. -/
theorem saveNote_eq_cleared (id : Int) (text : String) (st : NoteState)
    (h : (trimString text != "") = false) :
    saveNote (some id) text st
      = ({ notes := delKey st.notes id,
           storedNotes := some (delKey st.notes id) }, .cleared) := by
  unfold saveNote
  simp only [h]
  rfl

/-- C6: with a hymn open, `saveNote` trims the textarea text; when the
trimmed text is non-empty it upserts it and reports "saved", when empty it
deletes the id's entry (if present) and reports "cleared"; it persists the
whole map after every call; other ids are untouched; and the id is present
in the map afterwards iff the saved text is non-empty after trimming. -/
theorem saveNote_spec (id : Int) (text : String) (st : NoteState) :
    (saveNote (some id) text st).1.storedNotes
      = some (saveNote (some id) text st).1.notes ∧
    (trimString text ≠ "" →
      (saveNote (some id) text st).1.notes = setKey st.notes id (trimString text) ∧
      (saveNote (some id) text st).2 = SaveReport.saved ∧
      ((saveNote (some id) text st).1.notes).lookup id = some (trimString text)) ∧
    (trimString text = "" →
      (saveNote (some id) text st).1.notes = delKey st.notes id ∧
      (saveNote (some id) text st).2 = SaveReport.cleared ∧
      ((saveNote (some id) text st).1.notes).lookup id = none) ∧
    (∀ k, k ≠ id → ((saveNote (some id) text st).1.notes).lookup k
      = st.notes.lookup k) ∧
    ((((saveNote (some id) text st).1.notes).lookup id).isSome = true
      ↔ trimString text ≠ "") := by
  by_cases ht : trimString text = ""
  · have hb : (trimString text != "") = false := by simp [ht]
    rw [saveNote_eq_cleared id text st hb]
    refine ⟨rfl, fun hn => absurd ht hn, fun _ => ⟨rfl, rfl, ?_⟩, fun k hk => ?_, ?_⟩
    · exact lookup_delKey_self st.notes id
    · exact lookup_delKey_ne st.notes id k hk
    · simp [lookup_delKey_self st.notes id, ht]
  · have hb : (trimString text != "") = true := by simp [ht]
    rw [saveNote_eq_saved id text st hb]
    refine ⟨rfl, fun _ => ⟨rfl, rfl, ?_⟩, fun he => absurd he ht, fun k hk => ?_, ?_⟩
    · exact lookup_setKey_self st.notes id (trimString text)
    · exact lookup_setKey_ne st.notes id k (trimString text) hk
    · simp [lookup_setKey_self st.notes id (trimString text), ht]

/-- Witness for C6, the spec's scenario: saving "x" for id 7 and then saving
"  " removes id 7 entirely, reporting "cleared". -/
theorem saveNote_spec_witness :
    (saveNote (some 7) "  "
        ((saveNote (some 7) "x" { notes := [], storedNotes := none }).1)).1.notes = [] ∧
    (saveNote (some 7) "  "
        ((saveNote (some 7) "x" { notes := [], storedNotes := none }).1)).2
      = SaveReport.cleared := by
  have h := saveNote_spec 7 "  "
    ((saveNote (some 7) "x" { notes := [], storedNotes := none }).1)
  have h2 := h.2.2.1 (by decide)
  refine ⟨?_, h2.2.1⟩
  rw [h2.1]
  decide

/-- A Boolean that is not true is false. -/
theorem bool_eq_false {b : Bool} (h : ¬ b = true) : b = false := by
  cases b
  · rfl
  · exact absurd rfl h

/-- A string with an empty character list is the empty string. -/
theorem string_eq_empty_of_data {s : String} (h : s.data = []) : s = "" := by
  cases s with
  | mk l =>
    have hl : l = [] := h
    subst hl
    rfl

/-- `''.includes(q)` is false for a non-empty `q`. -/
theorem includesJs_empty (q : String) (hq : q ≠ "") : includesJs "" q = false := by
  have hd : q.data ≠ [] := fun hdata => hq (string_eq_empty_of_data hdata)
  show includesFrom q.data [] = false
  unfold includesFrom
  cases hqd : q.data with
  | nil => exact absurd hqd hd
  | cons c cs => simp [hqd]

/-- The early-return chain of `hymnMatches` as one Boolean disjunction. -/
theorem hymnMatches_eq (q : String) (cache : List (Int × String)) (h : Hymn) :
    hymnMatches q cache h
      = ((toString h.id == q || padStart3 (toString h.id) == q) ||
         (h.title != "" && includesJs (toLowerString h.title) q) ||
         ((bodyText h cache) != "" && includesJs (toLowerString (bodyText h cache)) q)) := by
  unfold hymnMatches
  by_cases hA : (toString h.id == q || padStart3 (toString h.id) == q) = true
  · simp [hA]
  · have hA2 := bool_eq_false hA
    rw [if_neg (by simp [hA2]), hA2, Bool.false_or]
    by_cases hB : (h.title != "" && includesJs (toLowerString h.title) q) = true
    · simp [hB]
    · have hB2 := bool_eq_false hB
      rw [if_neg (by simp [hB2]), hB2, Bool.false_or]

/-- The source's match test agrees with the specification-shaped predicate
for a non-empty normalized query (the `hymn.title &&` and `lyricsText &&`
truthiness guards change nothing, because an empty string cannot contain a
non-empty query). -/
theorem hymnMatches_iff (q : String) (hq : q ≠ "") (cache : List (Int × String))
    (h : Hymn) : hymnMatches q cache h = true ↔ matchesQuerySpec q cache h := by
  have hTitle : includesJs (toLowerString h.title) q = true → h.title ≠ "" := by
    intro hin he
    rw [he, show toLowerString "" = "" from rfl, includesJs_empty q hq] at hin
    exact Bool.noConfusion hin
  have hBody : includesJs (toLowerString (bodyText h cache)) q = true →
      bodyText h cache ≠ "" := by
    intro hin he
    rw [he, show toLowerString "" = "" from rfl, includesJs_empty q hq] at hin
    exact Bool.noConfusion hin
  rw [hymnMatches_eq]
  simp only [Bool.or_eq_true, Bool.and_eq_true, beq_iff_eq, bne_iff_ne, ne_eq]
  unfold matchesQuerySpec
  constructor
  · rintro (((h1 | h2) | ⟨_, h3⟩) | ⟨_, h4⟩)
    · exact Or.inl h1
    · exact Or.inr (Or.inl h2)
    · exact Or.inr (Or.inr (Or.inl h3))
    · exact Or.inr (Or.inr (Or.inr h4))
  · rintro (h1 | h2 | h3 | h4)
    · exact Or.inl (Or.inl (Or.inl h1))
    · exact Or.inl (Or.inl (Or.inr h2))
    · exact Or.inl (Or.inr ⟨hTitle h3, h3⟩)
    · exact Or.inr ⟨hBody h4, h4⟩

/-- C7: the text filter lower-cases and trims the query; an empty normalized
query leaves the catalog unfiltered; otherwise the result is a sublist of the
catalog (kept items in catalog order) containing exactly the items that match
by id string, zero-padded id, title substring or body substring. -/
theorem filterHymns_spec (query : String) (cache : List (Int × String))
    (hymns : List Hymn) :
    (trimString (toLowerString query) = "" →
      filterHymnsImmediate query cache hymns = hymns) ∧
    (trimString (toLowerString query) ≠ "" →
      (filterHymnsImmediate query cache hymns).Sublist hymns ∧
      ∀ h, h ∈ filterHymnsImmediate query cache hymns ↔
        h ∈ hymns ∧ matchesQuerySpec (trimString (toLowerString query)) cache h) := by
  constructor
  · intro hq
    simp [filterHymnsImmediate, hq]
  · intro hq
    have hb : (trimString (toLowerString query) == "") = false := by simp [hq]
    have hred : filterHymnsImmediate query cache hymns
        = hymns.filter (hymnMatches (trimString (toLowerString query)) cache) := by
      unfold filterHymnsImmediate
      rw [if_neg (by simp [hb])]
    rw [hred]
    refine ⟨List.filter_sublist _, fun h => ?_⟩
    rw [List.mem_filter]
    exact and_congr_right fun _ => hymnMatches_iff _ hq cache h

/-- Witness for C7, the spec's scenario on id 7, title "Grace Abounds":
query "007" matches via the zero-padded id, query "GRACE" (after
normalization "grace") matches via the title, and query "9" matches
nothing. -/
theorem filterHymns_spec_witness :
    graceHymn ∈ filterHymnsImmediate "007" [] [graceHymn] ∧
    graceHymn ∈ filterHymnsImmediate "GRACE " [] [graceHymn] ∧
    filterHymnsImmediate "9" [] [graceHymn] = [] := by
  refine ⟨?_, ?_, by decide⟩
  · exact (((filterHymns_spec "007" [] [graceHymn]).2 (by decide)).2 graceHymn).mpr
      ⟨by decide, by decide⟩
  · exact (((filterHymns_spec "GRACE " [] [graceHymn]).2 (by decide)).2 graceHymn).mpr
      ⟨by decide, by decide⟩

/-- A character outside the five escaped ones is left unchanged by
`escapeHtmlChar`. -/
theorem escapeHtmlChar_eq_self (c : Char)
    (hc : c ∉ (['&', '<', '>', '"', '\''] : List Char)) :
    escapeHtmlChar c = String.singleton c := by
  simp only [List.mem_cons, List.not_mem_nil, or_false, not_or] at hc
  obtain ⟨h1, h2, h3, h4, h5⟩ := hc
  unfold escapeHtmlChar
  rw [if_neg h1, if_neg h2, if_neg h3, if_neg h4, if_neg h5]

/-- The per-character escape emits none of the four dangerous characters. -/
theorem escapeHtmlChar_ok (c : Char) :
    ((escapeHtmlChar c).data.all fun d => !(badChar d)) = true := by
  by_cases hc : c ∈ (['&', '<', '>', '"', '\''] : List Char)
  · simp only [List.mem_cons, List.not_mem_nil, or_false] at hc
    rcases hc with h | h | h | h | h <;> subst h <;> decide
  · rw [escapeHtmlChar_eq_self c hc]
    simp only [List.mem_cons, List.not_mem_nil, or_false, not_or] at hc
    obtain ⟨h1, h2, h3, h4, h5⟩ := hc
    have hd : (String.singleton c).data = [c] := rfl
    rw [hd]
    simp [badChar, h2, h3, h4, h5]

/-- Prepending one character's escape preserves the entity-cleanliness of a
suffix. -/
theorem ampClean_escapeChar (c : Char) (rest : List Char)
    (h : ampClean rest = true) :
    ampClean ((escapeHtmlChar c).data ++ rest) = true := by
  by_cases hc : c ∈ (['&', '<', '>', '"', '\''] : List Char)
  · simp only [List.mem_cons, List.not_mem_nil, or_false] at hc
    rcases hc with h1 | h1 | h1 | h1 | h1 <;> subst h1 <;>
      simp [escapeHtmlChar, ampClean, entityTail, h]
  · rw [escapeHtmlChar_eq_self c hc]
    simp only [List.mem_cons, List.not_mem_nil, or_false, not_or] at hc
    have hb : (c == '&') = false := by simp [hc.1]
    show ampClean (c :: rest) = true
    simp [ampClean, hb, h]

/-- The whole escape produces no dangerous character and keeps every
ampersand at the head of an entity. -/
theorem escapeHtmlList_ok (cs : List Char) :
    (((escapeHtmlList cs).data.all fun d => !(badChar d)) = true) ∧
    ampClean (escapeHtmlList cs).data = true := by
  induction cs with
  | nil => exact ⟨rfl, rfl⟩
  | cons c cs ih =>
    rw [show escapeHtmlList (c :: cs) = escapeHtmlChar c ++ escapeHtmlList cs from rfl]
    rw [String.data_append]
    constructor
    · rw [List.all_append]
      simp [escapeHtmlChar_ok c, ih.1]
    · exact ampClean_escapeChar c _ ih.2

/-- `escapeHtml` output never contains a raw `<`. -/
theorem count_lt_escapeHtml (t : Option String) :
    countChar '<' (escapeHtml t) = 0 := by
  match t with
  | none => rfl
  | some s =>
    by_cases hs : (s == "") = true
    · have hse : s = "" := by simpa using hs
      subst hse
      rfl
    · have hred : escapeHtml (some s) = escapeHtmlList s.data := by
        show (if (s == "") = true then "" else escapeHtmlList s.data)
          = escapeHtmlList s.data
        rw [if_neg hs]
      rw [hred]
      unfold countChar
      apply List.count_eq_zero.mpr
      intro hmem
      have hall := (escapeHtmlList_ok s.data).1
      rw [List.all_eq_true] at hall
      have hbad := hall _ hmem
      simp [badChar] at hbad

/-- `countChar` distributes over string concatenation. -/
theorem countChar_append (c : Char) (s t : String) :
    countChar c (s ++ t) = countChar c s + countChar c t := by
  simp [countChar, String.data_append, List.count_append]

/-- The favorite-marker fragment contains no `<`. -/
theorem count_lt_favActive (P : Prop) [Decidable P] :
    countChar '<' (if P then (" active" : String) else "") = 0 := by
  split <;> decide

/-- The heart-icon class fragment contains no `<`. -/
theorem count_lt_fasfar (P : Prop) [Decidable P] :
    countChar '<' (if P then ("fas" : String) else "far") = 0 := by
  split <;> decide

/-- The preview suffix fragment contains no `<`. -/
theorem count_lt_previewSuffix (P : Prop) [Decidable P] :
    countChar '<' (if P then ("..." : String) else "Lyrics not available") = 0 := by
  split <;> decide

/-- C10: `escapeHtml` maps a null/undefined argument to the empty string,
maps each of the five characters to its entity and every other character to
itself; its output contains no raw `<`, `>`, `"` or `'` at all, and every
`&` in it starts one of the five entities; and the hymn card embeds its
title and lyrics preview only through `escapeHtml`, so the number of `<`
characters in a card is the same as for a blanked title and lyrics — markup
cannot be injected through them. -/
theorem escapeHtml_spec :
    escapeHtml none = "" ∧
    escapeHtmlChar '&' = "&amp;" ∧
    escapeHtmlChar '<' = "&lt;" ∧
    escapeHtmlChar '>' = "&gt;" ∧
    escapeHtmlChar '"' = "&quot;" ∧
    escapeHtmlChar '\'' = "&#39;" ∧
    (∀ c : Char, c ∉ (['&', '<', '>', '"', '\''] : List Char) →
      escapeHtmlChar c = String.singleton c) ∧
    (∀ s : String, ((escapeHtml (some s)).data.all fun d => !(badChar d)) = true) ∧
    (∀ s : String, ampClean (escapeHtml (some s)).data = true) ∧
    (∀ h favs cache, countChar '<' (createHymnCardHTML h favs cache)
      = countChar '<' (createHymnCardHTML { h with title := "", lyrics := "" } favs [])) := by
  refine ⟨rfl, rfl, rfl, rfl, rfl, rfl, escapeHtmlChar_eq_self, ?_, ?_, ?_⟩
  · intro s
    by_cases hs : (s == "") = true
    · have hse : s = "" := by simpa using hs
      subst hse
      rfl
    · have hred : escapeHtml (some s) = escapeHtmlList s.data := by
        show (if (s == "") = true then "" else escapeHtmlList s.data)
          = escapeHtmlList s.data
        rw [if_neg hs]
      rw [hred]
      exact (escapeHtmlList_ok s.data).1
  · intro s
    by_cases hs : (s == "") = true
    · have hse : s = "" := by simpa using hs
      subst hse
      rfl
    · have hred : escapeHtml (some s) = escapeHtmlList s.data := by
        show (if (s == "") = true then "" else escapeHtmlList s.data)
          = escapeHtmlList s.data
        rw [if_neg hs]
      rw [hred]
      exact (escapeHtmlList_ok s.data).2
  · intro h favs cache
    simp only [createHymnCardHTML, countChar_append, count_lt_escapeHtml,
      count_lt_favActive, count_lt_fasfar, count_lt_previewSuffix,
      Nat.add_zero, Nat.zero_add]

/-- Witness for C10: a neutral character passes through unchanged; a string
containing `<` and `&` escapes to clean output. -/
theorem escapeHtml_spec_witness :
    escapeHtmlChar 'x' = String.singleton 'x' ∧
    ((escapeHtml (some "a<b & c")).data.all fun d => !(badChar d)) = true ∧
    ampClean (escapeHtml (some "a<b & c")).data = true :=
  ⟨escapeHtml_spec.2.2.2.2.2.2.1 'x' (by decide),
   escapeHtml_spec.2.2.2.2.2.2.2.1 "a<b & c",
   escapeHtml_spec.2.2.2.2.2.2.2.2.1 "a<b & c"⟩

end Hymnal
